import Mathlib

/-!
# SYS-monitor: a verification development

A shallow embedding of `src/SYS-monitor.cpp` (the sampling-and-utilization
engine, the ranking and viewport logic, the two modal prompts and the wait loop
of `main`) together with theorems about it.

Conventions of the embedding

* `uint64_t` values are natural numbers; every arithmetic operation on them is
  reduced modulo `2^64` (`u64_add`, `u64_sub`, `u64_mul`).
* `int` values are integers (`Int`); the programme never brings them near the
  32-bit limits in the functions modelled here.
* `double` values are rational numbers (`Double := ℚ`).  Every arithmetic
  operation and every conversion to `double` rounds its exact result to the
  nearest number with a 53-bit significand, ties to even (`to_double`), as IEEE
  754 binary64 does.  The exponent range is left unbounded: the doubles computed
  by the functions below have magnitudes between `2^-64` and `100 * 2^64`, far
  from overflow and from the subnormal range.  NaN and the infinities are not
  values of `Double`; the one place where they can enter the programme, the
  return value of `std::stod`, has a result type of its own (`StodResult`).
* The operating system and the C++ library are inputs: the page size, the
  result of `kill`, the outcome of `std::stod` on a text and the keys returned
  by `getch` are parameters of the functions that use them.
-/

namespace SysMonitor

/-! ## Machine numbers -/

/-- The modulus of `uint64_t` arithmetic, `2^64`. -/
def UINT64_MOD : Nat := 18446744073709551616

/-- Addition of two `uint64_t` values. -/
def u64_add (a b : Nat) : Nat := (a + b) % UINT64_MOD

/-- Subtraction of two `uint64_t` values (wraps around below zero). -/
def u64_sub (a b : Nat) : Nat := (a % UINT64_MOD + (UINT64_MOD - b % UINT64_MOD)) % UINT64_MOD

/-- Multiplication of two `uint64_t` values. -/
def u64_mul (a b : Nat) : Nat := (a * b) % UINT64_MOD

/-- The type `double`, restricted to its finite values. -/
abbrev Double := ℚ

/-- Floor of the binary logarithm of a natural number, by halving; the first
argument bounds the number of halvings (`n` itself is always enough). -/
def log2_fuel : Nat → Nat → Nat
  | 0, _ => 0
  | fuel + 1, n => if n < 2 then 0 else log2_fuel fuel (n / 2) + 1

/-- Floor of the binary logarithm of a natural number (0 at 0). -/
def nat_log2 (n : Nat) : Nat := log2_fuel n n

/-- The binary exponent of a nonzero rational: the `e` with `2^e ≤ |x| < 2^(e+1)`. -/
def binade (x : ℚ) : ℤ :=
  let k : ℤ := (nat_log2 x.num.natAbs : ℤ) - (nat_log2 x.den : ℤ)
  if (2 : ℚ) ^ k ≤ |x| then k else k - 1

/-- Rounding of a rational to the nearest integer, ties to the even one. -/
def round_half_even (x : ℚ) : ℤ :=
  let f := ⌊x⌋
  let r := x - f
  if r < 1 / 2 then f
  else if 1 / 2 < r then f + 1
  else if f % 2 = 0 then f else f + 1

/-- Rounding of an exact value to `double`: the nearest multiple of
`2^(e-52)`, where `e` is the binary exponent of the value, ties to even. -/
def to_double (x : ℚ) : Double :=
  if x = 0 then 0
  else
    let u : ℚ := (2 : ℚ) ^ (binade x - 52)
    (round_half_even (x / u) : ℚ) * u

/-- Product of two doubles. -/
def fmul (a b : Double) : Double := to_double (a * b)

/-- Quotient of two doubles (never used with a zero divisor below). -/
def fdiv (a b : Double) : Double := to_double (a / b)

/-- Difference of two doubles. -/
def fsub (a b : Double) : Double := to_double (a - b)

/-! ## Data model -/

/-- The ten cumulative CPU counters of `/proc/stat` (`struct CpuTotals`). -/
structure CpuTotals where
  user : Nat := 0
  nice_ : Nat := 0
  system : Nat := 0
  idle : Nat := 0
  iowait : Nat := 0
  irq : Nat := 0
  softirq : Nat := 0
  steal : Nat := 0
  guest : Nat := 0
  guest_nice : Nat := 0
  deriving DecidableEq, Repr

/-- The method `CpuTotals::sum`: the sum of the ten counters in `uint64_t`. -/
def CpuTotals.sum (t : CpuTotals) : Nat :=
  u64_add (u64_add (u64_add (u64_add (u64_add (u64_add (u64_add (u64_add (u64_add
    t.user t.nice_) t.system) t.idle) t.iowait) t.irq) t.softirq) t.steal) t.guest) t.guest_nice

/-- One process at one sampling instant (`struct ProcSample`). -/
structure ProcSample where
  pid : Int := 0
  name : String := ""
  state : Char := '?'
  ppid : Int := 0
  uid : Nat := 0
  utime_ticks : Nat := 0
  stime_ticks : Nat := 0
  rss_pages : Nat := 0
  vsize : Nat := 0
  cpu_pct : Double := 0
  mem_pct : Double := 0
  deriving DecidableEq, Repr

/-- Memory totals in bytes (`struct MemInfo`). -/
structure MemInfo where
  memTotal : Nat := 0
  memFree : Nat := 0
  buffers : Nat := 0
  cached : Nat := 0
  sreclaimable : Nat := 0
  shmem : Nat := 0
  swapTotal : Nat := 0
  swapFree : Nat := 0
  deriving DecidableEq, Repr

/-- The sort key (`enum class SortKey`). -/
inductive SortKey where
  | CPU
  | MEM
  deriving DecidableEq, Repr

/-- The previous sample (`struct CpuSnapshot`); `proc_ticks` is the
`std::map<int, uint64_t>` as an association list, looked up by key. -/
structure CpuSnapshot where
  totals : CpuTotals := {}
  proc_ticks : List (Int × Nat) := []
  deriving DecidableEq, Repr

/-- The configuration of the loop (`struct Options`) with its defaults. -/
structure Options where
  sortKey : SortKey := SortKey.CPU
  offset : Int := 0
  refreshSec : Double := 1
  deriving DecidableEq, Repr

/-! ## Header: used memory -/

/-- The local `used` of `draw_header` (line 252). -/
def draw_header_used (m : MemInfo) : Nat :=
  u64_add (u64_sub (u64_sub (u64_sub (u64_sub m.memTotal m.memFree) m.buffers) m.cached)
    m.sreclaimable) m.shmem

/-- The local `swapUsed` of `draw_header` (line 253). -/
def draw_header_swapUsed (m : MemInfo) : Nat := u64_sub m.swapTotal m.swapFree

/-! ## Utilization -/

/-- The divisor `total_delta` of `compute_cpu_mem` (lines 285 to 287). -/
def compute_cpu_mem_total_delta (prev : CpuSnapshot) (now : CpuTotals) : Double :=
  let total_delta := to_double (u64_sub now.sum prev.totals.sum : ℚ)
  if total_delta < 1 then 1 else total_delta

/-- The body of the loop of `compute_cpu_mem` for one process (lines 290 to 296). -/
def compute_cpu_mem_one (page_size : Nat) (prev : CpuSnapshot) (total_delta : Double)
    (m : MemInfo) (p : ProcSample) : ProcSample :=
  let ticks := u64_add p.utime_ticks p.stime_ticks
  let prev_ticks :=
    match prev.proc_ticks.lookup p.pid with
    | none => ticks
    | some t => t
  let proc_delta := to_double (u64_sub ticks prev_ticks : ℚ)
  let cpu_pct := fdiv (fmul 100 proc_delta) total_delta
  let rss_bytes := u64_mul p.rss_pages page_size
  let mem_pct :=
    if m.memTotal ≠ 0 then fdiv (fmul 100 (to_double (rss_bytes : ℚ))) (to_double (m.memTotal : ℚ))
    else 0
  { p with cpu_pct := cpu_pct, mem_pct := mem_pct }

/-- The function `compute_cpu_mem`; `page_size` is the global `g_page_size`. -/
def compute_cpu_mem (page_size : Nat) (procs : List ProcSample) (prev : CpuSnapshot)
    (now : CpuTotals) (m : MemInfo) : List ProcSample :=
  let total_delta := compute_cpu_mem_total_delta prev now
  procs.map (compute_cpu_mem_one page_size prev total_delta m)

/-- The function `build_snapshot`: later entries for a pid replace earlier ones. -/
def build_snapshot (procs : List ProcSample) (totals : CpuTotals) : CpuSnapshot :=
  { totals := totals
    proc_ticks := procs.foldl
      (fun acc p => (p.pid, u64_add p.utime_ticks p.stime_ticks) ::
        acc.filter (fun kv => kv.1 != p.pid)) [] }

/-- The divisor `total_delta` of the tick loop of `main` (lines 467 and 469). -/
def main_total_delta (prevSnap : CpuSnapshot) (nowTotals : CpuTotals) : Double :=
  let total_delta := to_double (u64_sub nowTotals.sum prevSnap.totals.sum : ℚ)
  if total_delta < 1 then 1 else total_delta

/-- The aggregate `cpu_total_pct` of the tick loop of `main` (lines 465 to 471). -/
def main_cpu_total_pct (prevSnap : CpuSnapshot) (nowTotals : CpuTotals) : Double :=
  let idle_delta := to_double (u64_sub nowTotals.idle prevSnap.totals.idle : ℚ)
  let total_delta := main_total_delta prevSnap nowTotals
  fmul 100 (fsub 1 (fdiv idle_delta total_delta))

/-! ## Ranking and viewport -/

/-- The function `clamp` (lines 275 to 281); the updated `v` is returned. -/
def clamp (v lo hi : Int) : Int :=
  let v := if v < lo then lo else v
  if v > hi then hi else v

/-- The offset that `draw_processes` uses after its call of `clamp`
(lines 333 to 335); `LINES` is the height of the terminal. -/
def draw_processes_offset (LINES : Int) (procs : List ProcSample) (offset : Int) : Int :=
  let rows := LINES - 5
  let total : Int := (procs.length : Int)
  clamp offset 0 (max 0 (total - rows))

/-- The rows that `draw_processes` prints (lines 337 to 351): for each screen
row the process shown there, or `none` for a row left blank. -/
def draw_processes (LINES : Int) (procs : List ProcSample) (offset : Int) :
    List (Option ProcSample) :=
  let rows := LINES - 5
  let total : Int := (procs.length : Int)
  let offset := draw_processes_offset LINES procs offset
  (List.range rows.toNat).map (fun i =>
    let idx := offset + (i : Int)
    if idx ≥ total then none else procs.get? idx.toNat)

/-- The comparison of `sort_processes` for the key CPU (lines 361 to 366). -/
def cmp_cpu (a b : ProcSample) : Bool :=
  if a.cpu_pct = b.cpu_pct then decide (a.pid < b.pid) else decide (a.cpu_pct > b.cpu_pct)

/-- The comparison of `sort_processes` for the key MEM (lines 370 to 375). -/
def cmp_mem (a b : ProcSample) : Bool :=
  if a.mem_pct = b.mem_pct then decide (a.pid < b.pid) else decide (a.mem_pct > b.mem_pct)

/-- Insertion of `a` into a list sorted by `comp`: `a` passes the elements
that come strictly before it and stops in front of the first one that does
not, so it stays in front of its equivalents. -/
def stable_insert {α : Type} (comp : α → α → Bool) (a : α) : List α → List α
  | [] => [a]
  | b :: l => if comp b a then b :: stable_insert comp a l else a :: b :: l

/-- The library function `std::stable_sort` with a comparison `comp`: the
sorted arrangement that keeps equivalent elements in their input order.  For a
strict weak ordering the standard fixes this result; an insertion sort from the
right computes it. -/
def stable_sort {α : Type} (comp : α → α → Bool) : List α → List α
  | [] => []
  | a :: l => stable_insert comp a (stable_sort comp l)

/-- The function `sort_processes` (lines 358 to 377). -/
def sort_processes (procs : List ProcSample) (key : SortKey) : List ProcSample :=
  if key = SortKey.CPU then stable_sort cmp_cpu procs else stable_sort cmp_mem procs

/-- The comparison `sort_processes` hands to `std::stable_sort` for a key. -/
def cmp_of (key : SortKey) : ProcSample → ProcSample → Bool :=
  match key with
  | SortKey.CPU => cmp_cpu
  | SortKey.MEM => cmp_mem

/-- The metric a sort key ranks by. -/
def metric (key : SortKey) (p : ProcSample) : Double :=
  match key with
  | SortKey.CPU => p.cpu_pct
  | SortKey.MEM => p.mem_pct

/-- The order of the ranking: larger metric first, equal metrics by smaller pid. -/
def ranked_before (key : SortKey) (a b : ProcSample) : Prop :=
  metric key a > metric key b ∨ (metric key a = metric key b ∧ a.pid < b.pid)

instance ranked_before_decidable (key : SortKey) (a b : ProcSample) :
    Decidable (ranked_before key a b) := by
  unfold ranked_before
  exact inferInstance

/-! ## The modal prompts -/

/-- The signal number `SIGKILL`. -/
def SIGKILL : Int := 9

/-- The signal number `SIGTERM`. -/
def SIGTERM : Int := 15

/-- The white space that `strtol` skips (`isspace` in the C locale). -/
def isspace (c : Char) : Bool :=
  c = ' ' || c = '\t' || c = '\n' || c = '\x0b' || c = '\x0c' || c = '\r'

/-- The library function `std::stoi` in base 10: white space, an optional
sign, then digits; what follows the digits is ignored.  `none` stands for an
exception: `invalid_argument` without digits, `out_of_range` outside `int`. -/
def stoi (s : List Char) : Option Int :=
  let cs := s.dropWhile isspace
  let signed : Bool × List Char :=
    match cs with
    | '-' :: r => (true, r)
    | '+' :: r => (false, r)
    | r => (false, r)
  let digits := signed.2.takeWhile Char.isDigit
  if digits.isEmpty then none
  else
    let n : Nat := digits.foldl (fun acc c => 10 * acc + (c.toNat - 48)) 0
    let v : Int := if signed.1 then -(n : Int) else (n : Int)
    if v < -2147483648 ∨ 2147483647 < v then none else some v

/-- The test `!s.empty() && s.back()=='!'` of `prompt_pid_and_kill` (line 389). -/
def ends_with_bang (buf : String) : Bool :=
  !buf.toList.isEmpty && buf.toList.getLast? == some '!'

/-- The text handed to `stoi`: the input without one trailing `!` (lines 388 to 393). -/
def strip_bang (buf : String) : List Char :=
  if ends_with_bang buf then buf.toList.dropLast else buf.toList

/-- What a call of `prompt_pid_and_kill` does: its return code and the call
of `kill` it makes, if any, as the pair of pid and signal. -/
structure KillOutcome where
  rc : Int
  signal : Option (Int × Int)
  deriving DecidableEq, Repr

/-- The function `prompt_pid_and_kill` (lines 379 to 410); `buf` is the line
read by `getnstr`, `kill` gives the return code of the system call. -/
def prompt_pid_and_kill (kill : Int → Int → Int) (buf : String) : KillOutcome :=
  let sigkill := ends_with_bang buf
  let s := strip_bang buf
  let pid : Int :=
    match stoi s with
    | some v => v
    | none => 0
  let sig := if sigkill then SIGKILL else SIGTERM
  if pid > 1 then { rc := kill pid sig, signal := some (pid, sig) }
  else { rc := -1, signal := none }

/-- The outcome of the library call `std::stod` on a text: an exception, or
the double it returns, which may be NaN or an infinity. -/
inductive StodResult where
  | threw
  | nan
  | inf (negative : Bool)
  | finite (v : Double)
  deriving DecidableEq, Repr

/-- The literal `0.3` of line 424 as a double. -/
def REFRESH_MIN : Double := to_double (3 / 10)

/-- The literal `5.0` of line 424 as a double. -/
def REFRESH_MAX : Double := 5

/-- The function `prompt_refresh` (lines 412 to 429): the new value of
`refreshSec`.  Comparisons with NaN are false, `+inf <= 5.0` and
`-inf >= 0.3` are false. -/
def prompt_refresh (stod : String → StodResult) (buf : String) (refreshSec : Double) : Double :=
  match stod buf with
  | StodResult.finite v => if v ≥ REFRESH_MIN ∧ v ≤ REFRESH_MAX then v else refreshSec
  | _ => refreshSec

/-! ## The wait loop of `main` -/

/-- The value `ERR` of ncurses: no key was waiting. -/
def ERR : Int := -1

/-- The key code `KEY_DOWN` of ncurses. -/
def KEY_DOWN : Int := 258

/-- The key code `KEY_UP` of ncurses. -/
def KEY_UP : Int := 259

/-- The key code `KEY_NPAGE` of ncurses. -/
def KEY_NPAGE : Int := 338

/-- The key code `KEY_PPAGE` of ncurses. -/
def KEY_PPAGE : Int := 339

/-- The code of a character, as `getch` returns it. -/
def chr (c : Char) : Int := (c.toNat : Int)

/-- One pass of the wait loop: the value `getch` returned, and the line that
`getnstr` returns if this pass opens a prompt. -/
structure Poll where
  ch : Int
  line : String := ""
  deriving DecidableEq, Repr

/-- The variables the wait loop works on: the options, the flag `running`,
the calls of `kill` made so far (latest first) and the number of prompts opened. -/
structure LoopState where
  opt : Options := {}
  running : Bool := true
  signals : List (Int × Int) := []
  prompts : Nat := 0
  deriving DecidableEq, Repr

/-- The cases of the `switch` in the wait loop, and `idle` for a pass that
changes nothing (`ERR` or a key without a case). -/
inductive Command where
  | idle
  | quit
  | sort_cpu
  | sort_mem
  | kill
  | refresh
  | line_up
  | line_down
  | page_up
  | page_down
  deriving DecidableEq, Repr

/-- The case that a value of `getch` selects (the test for `ERR` of line 486 and
the case labels of lines 493 to 529). -/
def key_command (ch : Int) : Command :=
  if ch = ERR then Command.idle
  else if ch = 27 ∨ ch = chr 'q' then Command.quit
  else if ch = chr 'C' ∨ ch = chr 'c' then Command.sort_cpu
  else if ch = chr 'M' ∨ ch = chr 'm' then Command.sort_mem
  else if ch = chr 'K' ∨ ch = chr 'k' then Command.kill
  else if ch = chr 'R' ∨ ch = chr 'r' then Command.refresh
  else if ch = KEY_UP then Command.line_up
  else if ch = KEY_DOWN then Command.line_down
  else if ch = KEY_PPAGE then Command.page_up
  else if ch = KEY_NPAGE then Command.page_down
  else Command.idle

/-- The body of the wait loop of `main` for one pass (lines 485 to 531): what
the selected case does to the variables. -/
def main_wait_step (LINES : Int) (stod : String → StodResult) (kill : Int → Int → Int)
    (s : LoopState) (p : Poll) : LoopState :=
  match key_command p.ch with
  | Command.idle => s
  | Command.quit => { s with running := false }
  | Command.sort_cpu => { s with opt := { s.opt with sortKey := SortKey.CPU } }
  | Command.sort_mem => { s with opt := { s.opt with sortKey := SortKey.MEM } }
  | Command.kill =>
    { s with signals := (prompt_pid_and_kill kill p.line).signal.toList ++ s.signals,
             prompts := s.prompts + 1 }
  | Command.refresh =>
    { s with opt := { s.opt with refreshSec := prompt_refresh stod p.line s.opt.refreshSec },
             prompts := s.prompts + 1 }
  | Command.line_up => { s with opt := { s.opt with offset := max 0 (s.opt.offset - 1) } }
  | Command.line_down => { s with opt := { s.opt with offset := s.opt.offset + 1 } }
  | Command.page_up =>
    { s with opt := { s.opt with offset := max 0 (s.opt.offset - (LINES - 6)) } }
  | Command.page_down => { s with opt := { s.opt with offset := s.opt.offset + (LINES - 6) } }

/-- The wait loop of `main` (lines 483 to 532); `polls` are the passes made
before the deadline `until`, in order. -/
def main_wait (LINES : Int) (stod : String → StodResult) (kill : Int → Int → Int)
    (polls : List Poll) (s : LoopState) : LoopState :=
  polls.foldl (main_wait_step LINES stod kill) s

/-- The tick loop of `main` (lines 450 to 534) as far as the wait loop steers
it: each element of `waits` holds the passes of one wait.  The result is the
number of ticks (sample, compute, render) carried out and the final state; the
loop stops when `running` is false at the top, or when `waits` is used up. -/
def main_loop (LINES : Int) (stod : String → StodResult) (kill : Int → Int → Int) :
    List (List Poll) → LoopState → Nat × LoopState
  | [], s => (0, s)
  | w :: ws, s =>
    if s.running then
      let r := main_loop LINES stod kill ws (main_wait LINES stod kill w s)
      (r.1 + 1, r.2)
    else (0, s)

/-! ## Sample inputs -/

/-- A process with pid 42 and 5 ticks in all. -/
def reuse_proc : ProcSample :=
  { pid := 42, name := "sh", utime_ticks := 3, stime_ticks := 2 }

/-- A previous snapshot: 1000 ticks in all, 800 of them idle; pid 42 had 230 ticks. -/
def sample_prev : CpuSnapshot :=
  { totals := { user := 200, idle := 800 }, proc_ticks := [(42, 230)] }

/-- Totals 100 ticks after `sample_prev`, 50 of them idle. -/
def sample_now : CpuTotals := { user := 250, idle := 850 }

/-- The scenario of the specification: 8 GiB in total, 2 GiB free, 0.5 GiB of
buffers, 1 GiB cached and 0.2 GiB shared (in bytes). -/
def spec_mem : MemInfo :=
  { memTotal := 8589934592, memFree := 2147483648, buffers := 536870912, cached := 1073741824
    sreclaimable := 0, shmem := 214748364 }

/-- Totals 100 ticks after `sample_prev`, all of them idle. -/
def idle_now : CpuTotals := { user := 200, idle := 900 }

/-- The totals of a reading whose sum is 100 ticks below that of `sample_prev`. -/
def lower_now : CpuTotals := { user := 100, idle := 800 }

/-- Totals with the same sum as `sample_prev`, 100 ticks moved from idle to user. -/
def busy_now : CpuTotals := { user := 300, idle := 700 }

/-- A process with 7000 ticks that the previous snapshot does not know. -/
def fresh_proc : ProcSample :=
  { pid := 77, name := "cc1", utime_ticks := 6000, stime_ticks := 1000 }

/-- Three processes with distinct pids, two of them with equal CPU%. -/
def rank_input : List ProcSample :=
  [{ pid := 3, cpu_pct := 0, mem_pct := 2 }, { pid := 1, cpu_pct := 0, mem_pct := 1 },
   { pid := 2, cpu_pct := 5, mem_pct := 1 }]

/-- A sample behaviour of `std::stod`: the texts `0.3`, `5.0`, `0.29`, `5.01` and
`2.5` get the doubles nearest to them, `nan` gets NaN, every other text throws. -/
def test_stod (s : String) : StodResult :=
  if s = "0.3" then StodResult.finite (to_double (3 / 10))
  else if s = "5.0" then StodResult.finite (to_double 5)
  else if s = "0.29" then StodResult.finite (to_double (29 / 100))
  else if s = "5.01" then StodResult.finite (to_double (501 / 100))
  else if s = "2.5" then StodResult.finite (to_double (5 / 2))
  else if s = "nan" then StodResult.nan
  else StodResult.threw

/-- A sample behaviour of `std::stod`: every text is read as the double 2. -/
def const_stod (_ : String) : StodResult := StodResult.finite 2

/-- A wait in which `q` is followed by `m`, cursor down and `k` with the line `4242!`. -/
def keys_after_quit : List Poll :=
  [{ ch := chr 'q' }, { ch := chr 'm' }, { ch := KEY_DOWN }, { ch := chr 'k', line := "4242!" }]

/-- A wait in which `q` is followed by `r` with the line `2`. -/
def refresh_after_quit : List Poll := [{ ch := chr 'q' }, { ch := chr 'r', line := "2" }]

/-! ## Theorems -/

theorem to_double_zero : to_double 0 = 0 := by simp [to_double]

theorem to_double_one : to_double 1 = 1 := by decide!

theorem to_double_hundred : to_double 100 = 100 := by decide!

/-- The rounding agrees with IEEE 754 binary64 on known values: 0.1 and 0.3 get
their nearest doubles, integers up to `2^53` are exact, `2^53 + 1` is a tie and
goes to the even neighbour `2^53`, `2^53 + 3` goes to `2^53 + 4`, and the
rounding is symmetric in the sign. -/
theorem to_double_examples :
    to_double (1 / 10) = 3602879701896397 / 36028797018963968 ∧
    to_double (3 / 10) = 5404319552844595 / 18014398509481984 ∧
    to_double 9007199254740991 = 9007199254740991 ∧
    to_double 9007199254740993 = 9007199254740992 ∧
    to_double 9007199254740995 = 9007199254740996 ∧
    to_double (-9007199254740993) = -9007199254740992 ∧
    to_double (1 / 3) = 6004799503160661 / 18014398509481984 := by
  decide!

theorem log2_fuel_pow_le : ∀ (fuel n : Nat), 1 ≤ n → n ≤ fuel → 2 ^ log2_fuel fuel n ≤ n := by
  intro fuel
  induction fuel with
  | zero => intro n h1 h2; omega
  | succ f ih =>
    intro n h1 h2
    unfold log2_fuel
    by_cases hn : n < 2
    · simp [hn]; omega
    · simp only [hn, if_false]
      have h := ih (n / 2) (by omega) (by omega)
      rw [pow_succ]
      omega

theorem floor_le_round_half_even (x : ℚ) : ⌊x⌋ ≤ round_half_even x := by
  unfold round_half_even
  simp only
  split_ifs <;> omega

theorem binade_natCast (n : Nat) (h : 1 ≤ n) : binade (n : ℚ) = (nat_log2 n : ℤ) := by
  have hp : (2 : ℚ) ^ (nat_log2 n) ≤ (n : ℚ) := by
    have := log2_fuel_pow_le n n h le_rfl
    exact_mod_cast this
  have h1 : nat_log2 1 = 0 := by decide
  unfold binade
  simp only [Rat.num_natCast, Rat.den_natCast, Int.natAbs_ofNat, h1, Nat.cast_zero, sub_zero,
    zpow_natCast, Nat.abs_cast]
  rw [if_pos hp]

theorem log2_fuel_lt_pow : ∀ (fuel n : Nat), n ≤ fuel → n < 2 ^ (log2_fuel fuel n + 1) := by
  intro fuel
  induction fuel with
  | zero => intro n h; simp only [log2_fuel]; omega
  | succ f ih =>
    intro n h
    unfold log2_fuel
    by_cases hn : n < 2
    · simp only [hn, if_true]; omega
    · simp only [hn, if_false]
      have h1 := ih (n / 2) (by omega)
      rw [pow_succ]
      omega

theorem nat_log2_bounds (n : Nat) (h : 1 ≤ n) :
    (2 : ℚ) ^ (nat_log2 n : ℤ) ≤ (n : ℚ) ∧ (n : ℚ) < (2 : ℚ) ^ ((nat_log2 n : ℤ) + 1) := by
  have h1 := log2_fuel_pow_le n n h le_rfl
  have h2 := log2_fuel_lt_pow n n le_rfl
  constructor
  · rw [zpow_natCast]; exact_mod_cast h1
  · have : ((nat_log2 n : ℤ) + 1) = ((nat_log2 n + 1 : ℕ) : ℤ) := by push_cast; ring
    rw [this, zpow_natCast]; exact_mod_cast h2

/-- The binary exponent is the right one: `2^e ≤ |x| < 2^(e+1)` for `e = binade x`. -/
theorem binade_spec (x : ℚ) (hx : x ≠ 0) :
    (2 : ℚ) ^ binade x ≤ |x| ∧ |x| < (2 : ℚ) ^ (binade x + 1) := by
  have hN : 1 ≤ x.num.natAbs := by
    have : x.num ≠ 0 := Rat.num_ne_zero.mpr hx
    omega
  have hD : 1 ≤ x.den := x.den_pos
  obtain ⟨hNl, hNu⟩ := nat_log2_bounds _ hN
  obtain ⟨hDl, hDu⟩ := nat_log2_bounds _ hD
  have hDpos : (0 : ℚ) < (x.den : ℚ) := by exact_mod_cast x.den_pos
  have habs : |x| = (x.num.natAbs : ℚ) / (x.den : ℚ) := by
    conv_lhs => rw [← Rat.num_div_den x]
    rw [abs_div, Nat.abs_cast, ← Int.cast_abs, Int.abs_eq_natAbs, Int.cast_natCast]
  have h2 : (2 : ℚ) ≠ 0 := by norm_num
  set a : ℤ := (nat_log2 x.num.natAbs : ℤ) with ha
  set b : ℤ := (nat_log2 x.den : ℤ) with hb
  have hpa : (0 : ℚ) < 2 ^ a := by positivity
  have hpb : (0 : ℚ) < 2 ^ b := by positivity
  have hpb1 : (0 : ℚ) < 2 ^ (b + 1) := by positivity
  unfold binade
  simp only
  rw [← ha, ← hb]
  split_ifs with hk
  · refine ⟨hk, ?_⟩
    have e1 : (2 : ℚ) ^ (a - b + 1) = 2 ^ (a + 1) / 2 ^ b := by
      rw [← zpow_sub₀ h2]; congr 1; ring
    rw [e1, habs, div_lt_div_iff₀ hDpos hpb]
    calc (x.num.natAbs : ℚ) * 2 ^ b < 2 ^ (a + 1) * 2 ^ b :=
          mul_lt_mul_of_pos_right hNu hpb
      _ ≤ 2 ^ (a + 1) * (x.den : ℚ) := mul_le_mul_of_nonneg_left hDl (by positivity)
  · have e0 : a - b - 1 + 1 = a - b := by ring
    rw [e0]
    refine ⟨?_, not_le.mp hk⟩
    have e1 : (2 : ℚ) ^ (a - b - 1) = 2 ^ a / 2 ^ (b + 1) := by
      rw [← zpow_sub₀ h2]; congr 1; ring
    rw [e1, habs, div_le_div_iff₀ hpb1 hDpos]
    calc (2 : ℚ) ^ a * (x.den : ℚ) ≤ 2 ^ a * 2 ^ (b + 1) :=
          mul_le_mul_of_nonneg_left hDu.le hpa.le
      _ ≤ (x.num.natAbs : ℚ) * 2 ^ (b + 1) := mul_le_mul_of_nonneg_right hNl hpb1.le

/-- Rounding to the nearest integer moves a value by at most one half. -/
theorem round_half_even_error (y : ℚ) : |(round_half_even y : ℚ) - y| ≤ 1 / 2 := by
  have h1 := Int.floor_le y
  have h2 := Int.lt_floor_add_one y
  unfold round_half_even
  simp only
  rw [abs_le]
  split_ifs with ha hb hc <;> push_cast <;> constructor <;> linarith

/-- The rounding error of `to_double` is at most half a unit in the last place:
`|to_double x - x| ≤ 2^(e-53)` for the binary exponent `e` of `x`. -/
theorem to_double_error (x : ℚ) (hx : x ≠ 0) :
    |to_double x - x| ≤ (2 : ℚ) ^ (binade x - 53) := by
  unfold to_double
  rw [if_neg hx]
  simp only
  set u : ℚ := (2 : ℚ) ^ (binade x - 52) with hu
  have hupos : 0 < u := by positivity
  have e1 : (round_half_even (x / u) : ℚ) * u - x = ((round_half_even (x / u) : ℚ) - x / u) * u := by
    field_simp
  have e2 : (2 : ℚ) ^ (binade x - 53) = 1 / 2 * u := by
    rw [hu, show binade x - 53 = (binade x - 52) + (-1) by ring,
      zpow_add₀ (by norm_num : (2 : ℚ) ≠ 0)]
    norm_num; ring
  rw [e1, e2, abs_mul, abs_of_pos hupos]
  exact mul_le_mul_of_nonneg_right (round_half_even_error _) hupos.le

/-- The result of `to_double` has a significand of at most 53 bits: it is an
integer of magnitude at most `2^53` times `2^(e-52)`. -/
theorem to_double_significand (x : ℚ) (hx : x ≠ 0) :
    ∃ m : ℤ, |m| ≤ 2 ^ 53 ∧ to_double x = (m : ℚ) * (2 : ℚ) ^ (binade x - 52) := by
  refine ⟨round_half_even (x / (2 : ℚ) ^ (binade x - 52)), ?_, ?_⟩
  · have hb := (binade_spec x hx).2
    set u : ℚ := (2 : ℚ) ^ (binade x - 52) with hu
    have hupos : 0 < u := by positivity
    have e2 : (2 : ℚ) ^ (binade x + 1) = 2 ^ 53 * u := by
      rw [hu, show binade x + 1 = (53 : ℤ) + (binade x - 52) by ring,
        zpow_add₀ (by norm_num : (2 : ℚ) ≠ 0)]
      norm_num
    have hy : |x / u| < 2 ^ 53 := by
      rw [abs_div, abs_of_pos hupos, div_lt_iff₀ hupos, ← e2]; exact hb
    have herr := round_half_even_error (x / u)
    rw [abs_le] at herr
    rw [abs_lt] at hy
    have hlt : |(round_half_even (x / u) : ℚ)| < 2 ^ 53 + 1 := by
      rw [abs_lt]; constructor <;> linarith
    have hlt2 : |round_half_even (x / u)| < 2 ^ 53 + 1 := by
      have : ((|round_half_even (x / u)| : ℤ) : ℚ) < ((2 ^ 53 + 1 : ℤ) : ℚ) := by
        rw [Int.cast_abs]; norm_num; norm_num at hlt; exact hlt
      exact_mod_cast this
    omega
  · unfold to_double
    rw [if_neg hx]

theorem one_le_to_double_natCast (n : Nat) (h : 1 ≤ n) : 1 ≤ to_double (n : ℚ) := by
  have hn : (n : ℚ) ≠ 0 := by positivity
  have hp : (2 : ℚ) ^ (nat_log2 n) ≤ (n : ℚ) := by
    have := log2_fuel_pow_le n n h le_rfl
    exact_mod_cast this
  unfold to_double
  rw [if_neg hn, binade_natCast n h]
  simp only
  set k : ℤ := (nat_log2 n : ℤ) with hk
  have hu : (0 : ℚ) < 2 ^ (k - 52) := by positivity
  have hsplit : (2 : ℚ) ^ (52 : ℤ) * 2 ^ (k - 52) = 2 ^ k := by
    rw [← zpow_add₀ (by norm_num : (2 : ℚ) ≠ 0)]; congr 1; ring
  have hpk : (2 : ℚ) ^ k ≤ (n : ℚ) := by rw [hk, zpow_natCast]; exact hp
  have hy : ((2 ^ 52 : ℤ) : ℚ) ≤ (n : ℚ) / 2 ^ (k - 52) := by
    rw [le_div_iff₀ hu]
    have : ((2 ^ 52 : ℤ) : ℚ) = (2 : ℚ) ^ (52 : ℤ) := by norm_num
    rw [this, hsplit]; exact hpk
  have hfl : (2 ^ 52 : ℤ) ≤ ⌊(n : ℚ) / 2 ^ (k - 52)⌋ := Int.le_floor.mpr hy
  have hr : (2 ^ 52 : ℤ) ≤ round_half_even ((n : ℚ) / 2 ^ (k - 52)) :=
    le_trans hfl (floor_le_round_half_even _)
  have hrq : ((2 ^ 52 : ℤ) : ℚ) ≤ (round_half_even ((n : ℚ) / 2 ^ (k - 52)) : ℚ) := by
    exact_mod_cast hr
  have h2k : (1 : ℚ) ≤ 2 ^ k := by
    rw [hk, zpow_natCast]; exact one_le_pow₀ (by norm_num)
  calc (1 : ℚ) ≤ 2 ^ k := h2k
    _ = ((2 ^ 52 : ℤ) : ℚ) * 2 ^ (k - 52) := by
        rw [← hsplit]; norm_num
    _ ≤ (round_half_even ((n : ℚ) / 2 ^ (k - 52)) : ℚ) * 2 ^ (k - 52) :=
        mul_le_mul_of_nonneg_right hrq hu.le

/-- Rounding keeps the sign of a positive value. -/
theorem to_double_pos (x : ℚ) (hx : 0 < x) : 0 < to_double x := by
  have hb := (binade_spec x hx.ne').1
  have herr := to_double_error x hx.ne'
  rw [abs_of_pos hx] at hb
  rw [abs_le] at herr
  have e : (2 : ℚ) ^ (binade x - 53) = 2 ^ binade x * (1 / 9007199254740992) := by
    rw [show binade x - 53 = binade x + (-53) by ring, zpow_add₀ (by norm_num : (2 : ℚ) ≠ 0)]
    norm_num
  have hp : (0 : ℚ) < 2 ^ binade x := by positivity
  rw [e] at herr
  nlinarith [herr.1]

theorem u64_sub_self (a : Nat) : u64_sub a a = 0 := by
  simp only [u64_sub, UINT64_MOD]
  omega

theorem compute_cpu_mem_one_pid (page_size : Nat) (prev : CpuSnapshot) (td : Double)
    (m : MemInfo) (p : ProcSample) : (compute_cpu_mem_one page_size prev td m p).pid = p.pid := rfl

theorem compute_cpu_mem_one_absent (page_size : Nat) (prev : CpuSnapshot) (td : Double)
    (m : MemInfo) (p : ProcSample) (h : prev.proc_ticks.lookup p.pid = none) :
    (compute_cpu_mem_one page_size prev td m p).cpu_pct = 0 := by
  simp [compute_cpu_mem_one, h, u64_sub_self, fmul, fdiv, to_double_zero]

theorem compute_cpu_mem_one_reuse_pos (page_size : Nat) (prev : CpuSnapshot) (td : Double)
    (m : MemInfo) (p : ProcSample) (t : Nat)
    (hl : prev.proc_ticks.lookup p.pid = some t) (ht : t < UINT64_MOD)
    (hgt : u64_add p.utime_ticks p.stime_ticks < t) (htd : 0 < td) :
    0 < (compute_cpu_mem_one page_size prev td m p).cpu_pct := by
  have hd : 1 ≤ u64_sub (u64_add p.utime_ticks p.stime_ticks) t := by
    revert ht hgt
    generalize u64_add p.utime_ticks p.stime_ticks = k
    simp only [u64_sub, UINT64_MOD]
    omega
  have h1 := one_le_to_double_natCast _ hd
  simp only [compute_cpu_mem_one, hl, fdiv, fmul]
  apply to_double_pos
  apply div_pos _ htd
  apply to_double_pos
  linarith

/-- C1 (the code at the failing input): pid 42 is in the previous snapshot with 230
ticks and has 5 ticks now; `compute_cpu_mem` does not give it `cpu_pct = 0` but
the wrapped difference `2^64 - 225`, rounded to `2^64`, times 100 over the
system delta 100. -/
theorem compute_cpu_mem_pid_reuse_wraps :
    sample_prev.proc_ticks.lookup reuse_proc.pid = some 230 ∧
    u64_add reuse_proc.utime_ticks reuse_proc.stime_ticks = 5 ∧
    (compute_cpu_mem 4096 [reuse_proc] sample_prev sample_now {}).map (fun p => p.cpu_pct)
      = [18446744073709551616] := by
  decide!

/-- C2 (as stated, refuted): with `memTotal = 102400` and `memFree = 204800` the
value `used` wraps to `2^64 - 102400`, and with `memTotal = 102400` and
`shmem = 51200` it is 153600; both exceed `memTotal`. -/
theorem draw_header_used_not_clamped :
    ¬ (∀ m : MemInfo, draw_header_used m ≤ m.memTotal) ∧
    draw_header_used { memTotal := 102400, memFree := 204800 } = 18446744073709449216 ∧
    draw_header_used { memTotal := 102400, shmem := 51200 } = 153600 := by
  refine ⟨fun h => ?_, by decide, by decide⟩
  have := h { memTotal := 102400, shmem := 51200 }
  revert this
  decide

/-- C2 (amended): when the subtracted terms are consistent with the totals, that is
`shmem ≤ memFree + buffers + cached + sreclaimable ≤ memTotal + shmem`, the value
`used` of `draw_header` is `memTotal + shmem` minus the subtracted terms (reduced
modulo `2^64`) and lies in `[0, memTotal]`. -/
theorem draw_header_used_le_total (m : MemInfo)
    (hlo : m.shmem ≤ m.memFree + m.buffers + m.cached + m.sreclaimable)
    (hhi : m.memFree + m.buffers + m.cached + m.sreclaimable ≤ m.memTotal + m.shmem) :
    draw_header_used m
      = (m.memTotal + m.shmem - (m.memFree + m.buffers + m.cached + m.sreclaimable)) % UINT64_MOD ∧
    0 ≤ draw_header_used m ∧ draw_header_used m ≤ m.memTotal := by
  simp only [draw_header_used, u64_add, u64_sub, UINT64_MOD]
  omega

/-- A witness of C2 (amended): the scenario of the specification, 5046586572 bytes
(4.7 GiB) used. -/
theorem draw_header_used_le_total_witness :
    draw_header_used spec_mem = 5046586572 % UINT64_MOD ∧
    0 ≤ draw_header_used spec_mem ∧ draw_header_used spec_mem ≤ 8589934592 :=
  draw_header_used_le_total spec_mem (by decide) (by decide)

theorem u64_sub_lt (a b : Nat) : u64_sub a b < UINT64_MOD := by
  simp only [u64_sub, UINT64_MOD]
  omega

theorem floored_delta_of_pos (d : Nat) (h : d ≠ 0) :
    (if to_double (d : ℚ) < 1 then (1 : ℚ) else to_double (d : ℚ)) = to_double (d : ℚ) := by
  have h1 : 1 ≤ to_double (d : ℚ) := one_le_to_double_natCast d (Nat.one_le_iff_ne_zero.mpr h)
  rw [if_neg (not_lt.mpr h1)]

/-- C3 (as stated, refuted): for two identical readings the idle delta and the
system delta are both 0, yet the aggregate CPU% of the tick loop is 100, not 0. -/
theorem main_cpu_total_pct_identical_readings :
    u64_sub sample_prev.totals.idle sample_prev.totals.idle
      = u64_sub sample_prev.totals.sum sample_prev.totals.sum ∧
    u64_sub sample_prev.totals.sum sample_prev.totals.sum = 0 ∧
    main_cpu_total_pct sample_prev sample_prev.totals = 100 ∧
    main_cpu_total_pct sample_prev sample_prev.totals ≠ 0 := by
  decide!

/-- C3 (amended): whenever the idle tick delta equals the system tick delta (both as
`uint64_t` differences), the aggregate CPU% of the tick loop is exactly 0 if that
delta is not 0, and exactly 100 if it is 0 (the divisor is then floored to 1 while
the idle delta stays 0). -/
theorem main_cpu_total_pct_idle_eq_total (prevSnap : CpuSnapshot) (nowTotals : CpuTotals)
    (h : u64_sub nowTotals.idle prevSnap.totals.idle
      = u64_sub nowTotals.sum prevSnap.totals.sum) :
    (u64_sub nowTotals.sum prevSnap.totals.sum ≠ 0 →
      main_cpu_total_pct prevSnap nowTotals = 0) ∧
    (u64_sub nowTotals.sum prevSnap.totals.sum = 0 →
      main_cpu_total_pct prevSnap nowTotals = 100) := by
  constructor
  · intro hd
    have h1 : 1 ≤ to_double (u64_sub nowTotals.sum prevSnap.totals.sum : ℚ) :=
      one_le_to_double_natCast _ (Nat.one_le_iff_ne_zero.mpr hd)
    have hne : to_double (u64_sub nowTotals.sum prevSnap.totals.sum : ℚ) ≠ 0 := by
      intro h0; rw [h0] at h1; norm_num at h1
    simp only [main_cpu_total_pct, main_total_delta, h, floored_delta_of_pos _ hd, fdiv, fsub,
      fmul, div_self hne, to_double_one, sub_self, to_double_zero, mul_zero]
  · intro hd
    rw [hd] at h
    simp [main_cpu_total_pct, main_total_delta, h, hd, fdiv, fsub, fmul, to_double_zero,
      to_double_one, to_double_hundred]

/-- A witness of C3 (amended): from idle 800 of 1000 to idle 900 of 1100 the
aggregate is 0, and for two identical readings it is 100. -/
theorem main_cpu_total_pct_idle_eq_total_witness :
    main_cpu_total_pct sample_prev idle_now = 0 ∧
    main_cpu_total_pct sample_prev sample_prev.totals = 100 :=
  ⟨(main_cpu_total_pct_idle_eq_total sample_prev idle_now (by decide)).1
      (by decide),
   (main_cpu_total_pct_idle_eq_total sample_prev sample_prev.totals (by decide)).2 (by decide)⟩

/-- C4 (as stated, refuted): the current sum 900 is below the previous sum 1000, and
the divisor is not 1 but the wrapped difference `2^64 - 100` rounded to `2^64`,
in `compute_cpu_mem` and in the tick loop alike. -/
theorem total_delta_decrease_wraps :
    lower_now.sum = 900 ∧ sample_prev.totals.sum = 1000 ∧
    compute_cpu_mem_total_delta sample_prev lower_now = 18446744073709551616 ∧
    main_total_delta sample_prev lower_now = 18446744073709551616 := by
  decide!

/-- C4 (amended): the system tick delta used as divisor in `compute_cpu_mem` and in
the aggregate CPU% of the tick loop is the same value, it is at least 1, and it is
exactly 1 whenever `now.sum()` equals `prev.sum()`. -/
theorem total_delta_same_floor (prev : CpuSnapshot) (now : CpuTotals) :
    compute_cpu_mem_total_delta prev now = main_total_delta prev now ∧
    1 ≤ main_total_delta prev now ∧
    (now.sum = prev.totals.sum → main_total_delta prev now = 1) := by
  refine ⟨rfl, ?_, ?_⟩
  · simp only [main_total_delta]
    split_ifs with h
    · exact le_rfl
    · exact not_lt.mp h
  · intro h
    simp [main_total_delta, h, u64_sub_self, to_double_zero]

/-- A witness of C4 (amended): two readings with the same sum 1000. -/
theorem total_delta_same_floor_witness :
    main_total_delta sample_prev busy_now = 1 :=
  (total_delta_same_floor sample_prev busy_now).2.2 (by decide)

/-- C6: `compute_cpu_mem` keeps the processes and their pids in place, and every
process whose pid is absent from the pid-to-ticks map of the previous snapshot
gets `cpu_pct = 0`, whatever its tick counters, the totals and the memory figures. -/
theorem compute_cpu_mem_first_seen_zero (page_size : Nat) (procs : List ProcSample)
    (prev : CpuSnapshot) (now : CpuTotals) (m : MemInfo) :
    (compute_cpu_mem page_size procs prev now m).map (fun p => p.pid)
      = procs.map (fun p => p.pid) ∧
    ∀ q ∈ compute_cpu_mem page_size procs prev now m,
      prev.proc_ticks.lookup q.pid = none → q.cpu_pct = 0 := by
  constructor
  · simp [compute_cpu_mem, List.map_map, Function.comp_def, compute_cpu_mem_one_pid]
  · intro q hq habs
    simp only [compute_cpu_mem, List.mem_map] at hq
    obtain ⟨p, _, rfl⟩ := hq
    exact compute_cpu_mem_one_absent page_size prev _ m p habs

/-- A witness of C6: pid 77 is not in the previous snapshot and gets `cpu_pct = 0`. -/
theorem compute_cpu_mem_first_seen_zero_witness :
    sample_prev.proc_ticks.lookup fresh_proc.pid = none ∧
    (compute_cpu_mem_one 4096 sample_prev (compute_cpu_mem_total_delta sample_prev sample_now)
      spec_mem fresh_proc).cpu_pct = 0 :=
  ⟨by decide,
   (compute_cpu_mem_first_seen_zero 4096 [fresh_proc] sample_prev sample_now spec_mem).2 _
     (by simp [compute_cpu_mem]) (by decide)⟩

theorem sort_processes_eq (procs : List ProcSample) (key : SortKey) :
    sort_processes procs key = stable_sort (cmp_of key) procs := by
  cases key <;> simp [sort_processes, cmp_of]

theorem cmp_of_iff (key : SortKey) (a b : ProcSample) :
    cmp_of key a b = true ↔ ranked_before key a b := by
  cases key <;>
    simp only [cmp_of, cmp_cpu, cmp_mem, ranked_before, metric] <;>
    split_ifs with h <;> simp [h]

theorem ranked_before_asymm (key : SortKey) (a b : ProcSample)
    (h : ranked_before key a b) : ¬ ranked_before key b a := by
  unfold ranked_before at *
  rintro (h2 | ⟨h2, h3⟩)
  · rcases h with h | ⟨h, _⟩
    · exact absurd (lt_trans h h2) (lt_irrefl _)
    · rw [h] at h2; exact lt_irrefl _ h2
  · rcases h with h | ⟨_, h⟩
    · rw [h2] at h; exact lt_irrefl _ h
    · omega

theorem not_ranked_before_trans (key : SortKey) (a b c : ProcSample)
    (h1 : ¬ ranked_before key b a) (h2 : ¬ ranked_before key c b) :
    ¬ ranked_before key c a := by
  unfold ranked_before at *
  push_neg at *
  obtain ⟨h1a, h1b⟩ := h1
  obtain ⟨h2a, h2b⟩ := h2
  constructor
  · exact le_trans h2a h1a
  · intro h
    have hcb : metric key c = metric key b := le_antisymm h2a (h ▸ h1a)
    have hba : metric key b = metric key a := by rw [← hcb, h]
    have := h1b hba
    have := h2b hcb
    omega

theorem perm_stable_insert {α : Type} (comp : α → α → Bool) (a : α) :
    ∀ l : List α, (stable_insert comp a l).Perm (a :: l)
  | [] => List.Perm.refl _
  | b :: l => by
    unfold stable_insert
    split_ifs
    · exact ((perm_stable_insert comp a l).cons b).trans (List.Perm.swap a b l)
    · exact List.Perm.refl _

theorem perm_stable_sort {α : Type} (comp : α → α → Bool) :
    ∀ l : List α, (stable_sort comp l).Perm l
  | [] => List.Perm.refl _
  | a :: l => by
    unfold stable_sort
    exact (perm_stable_insert comp a _).trans ((perm_stable_sort comp l).cons a)

theorem pairwise_stable_insert (key : SortKey) (a : ProcSample) :
    ∀ l : List ProcSample, l.Pairwise (fun x y => ¬ ranked_before key y x) →
      (stable_insert (cmp_of key) a l).Pairwise (fun x y => ¬ ranked_before key y x)
  | [], _ => by simp [stable_insert]
  | b :: l, h => by
    unfold stable_insert
    rw [List.pairwise_cons] at h
    split_ifs with hc
    · rw [cmp_of_iff] at hc
      rw [List.pairwise_cons]
      refine ⟨fun y hy => ?_, pairwise_stable_insert key a l h.2⟩
      rcases List.mem_cons.mp ((perm_stable_insert (cmp_of key) a l).mem_iff.mp hy) with rfl | hy
      · exact ranked_before_asymm key _ _ hc
      · exact h.1 y hy
    · rw [cmp_of_iff] at hc
      rw [List.pairwise_cons]
      refine ⟨fun y hy => ?_, List.pairwise_cons.mpr h⟩
      rcases List.mem_cons.mp hy with rfl | hy
      · exact hc
      · exact not_ranked_before_trans key a b y hc (h.1 y hy)

theorem pairwise_stable_sort (key : SortKey) :
    ∀ l : List ProcSample,
      (stable_sort (cmp_of key) l).Pairwise (fun x y => ¬ ranked_before key y x)
  | [] => by simp [stable_sort]
  | a :: l => by
    unfold stable_sort
    exact pairwise_stable_insert key a _ (pairwise_stable_sort key l)

theorem not_ranked_before_of_pid_ne (key : SortKey) (a b : ProcSample)
    (h : ¬ ranked_before key b a) (hp : a.pid ≠ b.pid) : ranked_before key a b := by
  unfold ranked_before at *
  push_neg at h
  rcases lt_or_eq_of_le h.1 with h1 | h1
  · exact Or.inl h1
  · exact Or.inr ⟨h1.symm, lt_of_le_of_ne (h.2 h1) hp⟩

theorem sort_processes_pairwise (procs : List ProcSample) (key : SortKey)
    (hnd : (procs.map (fun p => p.pid)).Nodup) :
    (sort_processes procs key).Pairwise (ranked_before key) := by
  rw [sort_processes_eq]
  have hperm := perm_stable_sort (cmp_of key) procs
  have hnd2 : ((stable_sort (cmp_of key) procs).map (fun p => p.pid)).Nodup :=
    (hperm.map _).nodup_iff.mpr hnd
  have hne : (stable_sort (cmp_of key) procs).Pairwise (fun a b => a.pid ≠ b.pid) := by
    unfold List.Nodup at hnd2
    exact (List.pairwise_map.mp hnd2)
  exact ((pairwise_stable_sort key procs).and hne).imp
    (fun {a b} h => not_ranked_before_of_pid_ne key a b h.1 h.2)

/-- C5: for a process list with pairwise distinct pids and either sort key,
`sort_processes` returns a permutation of its input in which every adjacent pair
`(a, b)` has a larger metric at `a`, or equal metrics and a smaller pid at `a`;
and any permutation of the input sorts to the same list. -/
theorem sort_processes_ranked (procs : List ProcSample) (key : SortKey)
    (hnd : (procs.map (fun p => p.pid)).Nodup) :
    (sort_processes procs key).Perm procs ∧
    List.Chain' (ranked_before key) (sort_processes procs key) ∧
    ∀ procs' : List ProcSample, procs'.Perm procs →
      sort_processes procs' key = sort_processes procs key := by
  refine ⟨?_, (sort_processes_pairwise procs key hnd).chain', ?_⟩
  · rw [sort_processes_eq]; exact perm_stable_sort _ _
  · intro procs' hp
    have hnd' : (procs'.map (fun p => p.pid)).Nodup := (hp.map _).nodup_iff.mpr hnd
    haveI : IsAntisymm ProcSample (ranked_before key) :=
      ⟨fun a b h1 h2 => absurd h2 (ranked_before_asymm key a b h1)⟩
    apply List.eq_of_perm_of_sorted _ (sort_processes_pairwise procs' key hnd')
      (sort_processes_pairwise procs key hnd)
    have h1 : (sort_processes procs' key).Perm procs' := by
      rw [sort_processes_eq]; exact perm_stable_sort _ _
    have h2 : (sort_processes procs key).Perm procs := by
      rw [sort_processes_eq]; exact perm_stable_sort _ _
    exact h1.trans (hp.trans h2.symm)

/-- A witness of C5: three processes, two of them tied at 0% CPU. -/
theorem sort_processes_ranked_witness :
    (rank_input.map (fun p => p.pid)).Nodup ∧
    (sort_processes rank_input SortKey.CPU).Perm rank_input ∧
    List.Chain' (ranked_before SortKey.CPU) (sort_processes rank_input SortKey.CPU) ∧
    sort_processes rank_input.reverse SortKey.CPU = sort_processes rank_input SortKey.CPU :=
  ⟨by decide,
   (sort_processes_ranked rank_input SortKey.CPU (by decide)).1,
   (sort_processes_ranked rank_input SortKey.CPU (by decide)).2.1,
   (sort_processes_ranked rank_input SortKey.CPU (by decide)).2.2 rank_input.reverse
     (List.reverse_perm rank_input)⟩

theorem clamp_mem_range (v lo hi : Int) (h : lo ≤ hi) :
    lo ≤ clamp v lo hi ∧ clamp v lo hi ≤ hi := by
  unfold clamp
  simp only
  split_ifs <;> omega

theorem clamp_of_mem_range (v lo hi : Int) (h1 : lo ≤ v) (h2 : v ≤ hi) : clamp v lo hi = v := by
  unfold clamp
  simp only
  split_ifs <;> omega

/-- C7 (as stated, refuted): on a terminal of 3 lines `rows = LINES - 5` is -2; with
no process (`N = 0`) the bound `max(0, N - rows)` is 2, and the requested offset 7
becomes 2, not 0. -/
theorem draw_processes_offset_short_terminal :
    ([] : List ProcSample).length = 0 ∧
    max 0 ((([] : List ProcSample).length : Int) - (3 - 5)) = 2 ∧
    draw_processes_offset 3 [] 7 = 2 ∧
    draw_processes_offset 3 [] 7 ≠ 0 := by
  decide

/-- C7 (amended): for every requested offset, every process list (of any length `N`)
and every terminal height, the offset `draw_processes` uses after `clamp` lies in
`[0, max(0, N - rows)]` with `rows = LINES - 5`; it is 0 when the list is empty
and `rows` is not negative (a terminal of at least 5 lines), and it is the
requested offset when that is already in the range. -/
theorem draw_processes_offset_in_range (LINES : Int) (procs : List ProcSample) (offset : Int) :
    (0 ≤ draw_processes_offset LINES procs offset ∧
      draw_processes_offset LINES procs offset ≤ max 0 ((procs.length : Int) - (LINES - 5))) ∧
    (procs.length = 0 → 0 ≤ LINES - 5 → draw_processes_offset LINES procs offset = 0) ∧
    (0 ≤ offset → offset ≤ max 0 ((procs.length : Int) - (LINES - 5)) →
      draw_processes_offset LINES procs offset = offset) := by
  have hr := clamp_mem_range offset 0 (max 0 ((procs.length : Int) - (LINES - 5)))
    (le_max_left _ _)
  refine ⟨hr, ?_, ?_⟩
  · intro hN hrows
    have hmax : max 0 ((procs.length : Int) - (LINES - 5)) = 0 := by
      rw [hN]; simp only [Nat.cast_zero, zero_sub]; exact max_eq_left (by omega)
    rw [hmax] at hr
    change clamp offset 0 (max 0 ((procs.length : Int) - (LINES - 5))) = 0
    rw [hmax]
    omega
  · intro h1 h2
    exact clamp_of_mem_range _ _ _ h1 h2

/-- A witness of C7 (amended): on a terminal of 24 lines (19 rows) with 3 processes the
requested offset 7 becomes 0, with no process the offset -4 becomes 0, and with
30 processes the offset 11 stays. -/
theorem draw_processes_offset_in_range_witness :
    draw_processes_offset 24 rank_input 7 ≤ max 0 ((rank_input.length : Int) - (24 - 5)) ∧
    draw_processes_offset 24 [] (-4) = 0 ∧
    draw_processes_offset 24 (List.replicate 30 fresh_proc) 11 = 11 :=
  ⟨(draw_processes_offset_in_range 24 rank_input 7).1.2,
   (draw_processes_offset_in_range 24 [] (-4)).2.1 (by decide) (by decide),
   (draw_processes_offset_in_range 24 (List.replicate 30 fresh_proc) 11).2.2
     (by decide) (by decide)⟩

theorem prompt_refresh_in_range (stod : String → StodResult) (buf : String) (prior : Double)
    (h : REFRESH_MIN ≤ prior ∧ prior ≤ REFRESH_MAX) :
    REFRESH_MIN ≤ prompt_refresh stod buf prior ∧ prompt_refresh stod buf prior ≤ REFRESH_MAX := by
  unfold prompt_refresh
  split
  · split_ifs with hv
    · exact hv
    · exact h
  · exact h

theorem refresh_default_in_range :
    REFRESH_MIN ≤ ({} : Options).refreshSec ∧ ({} : Options).refreshSec ≤ REFRESH_MAX := by
  decide!

/-- C8: `prompt_refresh` sets the interval to the parsed value `v` when `std::stod`
returns a double `v` with `0.3 <= v <= 5.0` (both literals as doubles), and leaves
it unchanged when `v` is out of that range or when `std::stod` throws or returns
NaN or an infinity; the doubles of 0.3 and 5.0 are accepted, those of 0.29 and
5.01 are rejected; and from the default 1.0 the interval stays in `[0.3, 5.0]`
after any sequence of prompts. -/
theorem prompt_refresh_accepts_range (stod : String → StodResult) (buf : String)
    (prior : Double) :
    (∀ v, stod buf = StodResult.finite v → REFRESH_MIN ≤ v → v ≤ REFRESH_MAX →
      prompt_refresh stod buf prior = v) ∧
    (∀ v, stod buf = StodResult.finite v → (v < REFRESH_MIN ∨ REFRESH_MAX < v) →
      prompt_refresh stod buf prior = prior) ∧
    ((∀ v, stod buf ≠ StodResult.finite v) → prompt_refresh stod buf prior = prior) ∧
    (stod buf = StodResult.finite (to_double (3 / 10)) →
      prompt_refresh stod buf prior = to_double (3 / 10)) ∧
    (stod buf = StodResult.finite (to_double 5) → prompt_refresh stod buf prior = to_double 5) ∧
    (stod buf = StodResult.finite (to_double (29 / 100)) →
      prompt_refresh stod buf prior = prior) ∧
    (stod buf = StodResult.finite (to_double (501 / 100)) →
      prompt_refresh stod buf prior = prior) ∧
    ∀ texts : List String,
      REFRESH_MIN ≤ texts.foldl (fun r t => prompt_refresh stod t r) ({} : Options).refreshSec ∧
      texts.foldl (fun r t => prompt_refresh stod t r) ({} : Options).refreshSec ≤ REFRESH_MAX := by
  have hacc : ∀ v, stod buf = StodResult.finite v → REFRESH_MIN ≤ v → v ≤ REFRESH_MAX →
      prompt_refresh stod buf prior = v := by
    intro v hv h1 h2
    simp only [prompt_refresh, hv]
    rw [if_pos ⟨h1, h2⟩]
  have hrej : ∀ v, stod buf = StodResult.finite v → (v < REFRESH_MIN ∨ REFRESH_MAX < v) →
      prompt_refresh stod buf prior = prior := by
    intro v hv h
    simp only [prompt_refresh, hv]
    rw [if_neg]
    rintro ⟨h1, h2⟩
    rcases h with h | h
    · exact absurd h1 (not_le.mpr h)
    · exact absurd h2 (not_le.mpr h)
  refine ⟨hacc, hrej, ?_, ?_, ?_, ?_, ?_, ?_⟩
  · intro h
    unfold prompt_refresh
    split
    · rename_i v hv; exact absurd hv (h v)
    · rfl
  · intro h; exact hacc _ h (by decide!) (by decide!)
  · intro h; exact hacc _ h (by decide!) (by decide!)
  · intro h; exact hrej _ h (Or.inl (by decide!))
  · intro h; exact hrej _ h (Or.inr (by decide!))
  · intro texts
    have key : ∀ (ts : List String) (r : Double), (REFRESH_MIN ≤ r ∧ r ≤ REFRESH_MAX) →
        (REFRESH_MIN ≤ ts.foldl (fun r t => prompt_refresh stod t r) r ∧
          ts.foldl (fun r t => prompt_refresh stod t r) r ≤ REFRESH_MAX) := by
      intro ts
      induction ts with
      | nil => intro r hr; exact hr
      | cons t ts ih =>
        intro r hr
        exact ih _ (prompt_refresh_in_range stod t r hr)
    exact key texts _ refresh_default_in_range

theorem main_wait_step_refresh (LINES : Int) (stod : String → StodResult)
    (kill : Int → Int → Int) (s : LoopState) (p : Poll)
    (h : REFRESH_MIN ≤ s.opt.refreshSec ∧ s.opt.refreshSec ≤ REFRESH_MAX) :
    REFRESH_MIN ≤ (main_wait_step LINES stod kill s p).opt.refreshSec ∧
      (main_wait_step LINES stod kill s p).opt.refreshSec ≤ REFRESH_MAX := by
  have hp := prompt_refresh_in_range stod p.line s.opt.refreshSec h
  unfold main_wait_step
  cases key_command p.ch
  case refresh => exact hp
  all_goals exact h

/-- The refresh interval stays in `[0.3, 5.0]` through every wait of the tick loop,
whatever keys are read. -/
theorem main_wait_refresh_in_range (LINES : Int) (stod : String → StodResult)
    (kill : Int → Int → Int) (polls : List Poll) :
    ∀ s : LoopState, (REFRESH_MIN ≤ s.opt.refreshSec ∧ s.opt.refreshSec ≤ REFRESH_MAX) →
      (REFRESH_MIN ≤ (main_wait LINES stod kill polls s).opt.refreshSec ∧
        (main_wait LINES stod kill polls s).opt.refreshSec ≤ REFRESH_MAX) := by
  induction polls with
  | nil => intro s h; exact h
  | cons p ps ih =>
    intro s h
    exact ih _ (main_wait_step_refresh LINES stod kill s p h)

/-- A witness of C8: `0.3` and `5.0` are taken over, `0.29`, `5.01` and a text
that does not parse leave the prior interval 1.0. -/
theorem prompt_refresh_accepts_range_witness :
    prompt_refresh test_stod "0.3" 1 = to_double (3 / 10) ∧
    prompt_refresh test_stod "5.0" 1 = to_double 5 ∧
    prompt_refresh test_stod "0.29" 1 = 1 ∧
    prompt_refresh test_stod "5.01" 1 = 1 ∧
    prompt_refresh test_stod "fast" 1 = 1 :=
  ⟨(prompt_refresh_accepts_range test_stod "0.3" 1).2.2.2.1 (by decide!),
   (prompt_refresh_accepts_range test_stod "5.0" 1).2.2.2.2.1 (by decide!),
   (prompt_refresh_accepts_range test_stod "0.29" 1).2.2.2.2.2.1 (by decide!),
   (prompt_refresh_accepts_range test_stod "5.01" 1).2.2.2.2.2.2.1 (by decide!),
   (prompt_refresh_accepts_range test_stod "fast" 1).2.2.1
     (fun v h => by simp [test_stod] at h)⟩

theorem prompt_pid_and_kill_of_throw (kill : Int → Int → Int) (buf : String)
    (h : stoi (strip_bang buf) = none) :
    prompt_pid_and_kill kill buf = { rc := -1, signal := none } := by
  simp [prompt_pid_and_kill, h]

theorem prompt_pid_and_kill_of_small (kill : Int → Int → Int) (buf : String) (v : Int)
    (h : stoi (strip_bang buf) = some v) (hv : v ≤ 1) :
    prompt_pid_and_kill kill buf = { rc := -1, signal := none } := by
  simp only [prompt_pid_and_kill, h]
  rw [if_neg (by omega)]

theorem prompt_pid_and_kill_of_pid (kill : Int → Int → Int) (buf : String) (v : Int)
    (h : stoi (strip_bang buf) = some v) (hv : 1 < v) :
    prompt_pid_and_kill kill buf
      = { rc := kill v (if ends_with_bang buf then SIGKILL else SIGTERM)
          signal := some (v, if ends_with_bang buf then SIGKILL else SIGTERM) } := by
  simp only [prompt_pid_and_kill, h]
  rw [if_pos (by omega)]

/-- C9: `prompt_pid_and_kill` calls `kill` if and only if the text, after one
trailing `!` is removed, parses (by `std::stoi`) to a pid greater than 1; when
`std::stoi` throws (no number, or out of the range of `int`) or the pid is at most
1, no signal is issued and the return code is -1; and a signal that is issued goes
to the parsed pid and is SIGKILL exactly when the text ended in `!`, SIGTERM
otherwise. -/
theorem prompt_pid_and_kill_signal (kill : Int → Int → Int) (buf : String) :
    ((prompt_pid_and_kill kill buf).signal.isSome = true ↔
      ∃ pid, stoi (strip_bang buf) = some pid ∧ 1 < pid) ∧
    (stoi (strip_bang buf) = none →
      (prompt_pid_and_kill kill buf).signal = none ∧ (prompt_pid_and_kill kill buf).rc = -1) ∧
    (∀ pid, stoi (strip_bang buf) = some pid → pid ≤ 1 →
      (prompt_pid_and_kill kill buf).signal = none ∧ (prompt_pid_and_kill kill buf).rc = -1) ∧
    (∀ pid sig, (prompt_pid_and_kill kill buf).signal = some (pid, sig) →
      stoi (strip_bang buf) = some pid ∧
      (ends_with_bang buf = true → sig = SIGKILL) ∧
      (ends_with_bang buf = false → sig = SIGTERM) ∧
      (prompt_pid_and_kill kill buf).rc = kill pid sig) := by
  have hthrow : stoi (strip_bang buf) = none →
      (prompt_pid_and_kill kill buf).signal = none ∧ (prompt_pid_and_kill kill buf).rc = -1 := by
    intro h
    rw [prompt_pid_and_kill_of_throw kill buf h]
    exact ⟨rfl, rfl⟩
  have hsmall : ∀ pid, stoi (strip_bang buf) = some pid → pid ≤ 1 →
      (prompt_pid_and_kill kill buf).signal = none ∧ (prompt_pid_and_kill kill buf).rc = -1 := by
    intro pid h hle
    rw [prompt_pid_and_kill_of_small kill buf pid h hle]
    exact ⟨rfl, rfl⟩
  refine ⟨?_, hthrow, hsmall, ?_⟩
  · constructor
    · intro hsome
      cases hs : stoi (strip_bang buf) with
      | none =>
        rw [(hthrow hs).1] at hsome
        exact absurd hsome (by simp)
      | some v =>
        by_cases hv : 1 < v
        · exact ⟨v, rfl, hv⟩
        · rw [(hsmall v hs (by omega)).1] at hsome
          exact absurd hsome (by simp)
    · rintro ⟨pid, hs, hv⟩
      rw [prompt_pid_and_kill_of_pid kill buf pid hs hv]
      rfl
  · intro pid sig hsig
    cases hs : stoi (strip_bang buf) with
    | none =>
      rw [(hthrow hs).1] at hsig
      exact absurd hsig (by simp)
    | some v =>
      by_cases hv : 1 < v
      · rw [prompt_pid_and_kill_of_pid kill buf v hs hv] at hsig ⊢
        simp only [Option.some.injEq, Prod.mk.injEq] at hsig
        obtain ⟨h1, h2⟩ := hsig
        subst h1
        subst h2
        refine ⟨rfl, ?_, ?_, rfl⟩
        · intro hb; simp [hb]
        · intro hb; simp [hb]
      · rw [(hsmall v hs (by omega)).1] at hsig
        exact absurd hsig (by simp)

/-- A witness of C9: `1234!` sends SIGKILL to 1234, `1234` sends SIGTERM, and `1`,
`0`, `-7!`, a word and a number beyond `int` send nothing and return -1. -/
theorem prompt_pid_and_kill_signal_witness :
    ((prompt_pid_and_kill (fun _ _ => 0) "1234!").signal.isSome = true) ∧
    prompt_pid_and_kill (fun _ _ => 0) "1234!" = { rc := 0, signal := some (1234, SIGKILL) } ∧
    prompt_pid_and_kill (fun _ _ => 0) "1234" = { rc := 0, signal := some (1234, SIGTERM) } ∧
    (prompt_pid_and_kill (fun _ _ => 0) "1").signal = none ∧
    (prompt_pid_and_kill (fun _ _ => 0) "0").rc = -1 ∧
    (prompt_pid_and_kill (fun _ _ => 0) "-7!").signal = none ∧
    (prompt_pid_and_kill (fun _ _ => 0) "top").rc = -1 ∧
    (prompt_pid_and_kill (fun _ _ => 0) "99999999999").signal = none :=
  ⟨(prompt_pid_and_kill_signal (fun _ _ => 0) "1234!").1.mpr ⟨1234, by decide, by decide⟩,
   by decide, by decide,
   ((prompt_pid_and_kill_signal (fun _ _ => 0) "1").2.2.1 1 (by decide) (by decide)).1,
   ((prompt_pid_and_kill_signal (fun _ _ => 0) "0").2.2.1 0 (by decide) (by decide)).2,
   ((prompt_pid_and_kill_signal (fun _ _ => 0) "-7!").2.2.1 (-7) (by decide) (by decide)).1,
   ((prompt_pid_and_kill_signal (fun _ _ => 0) "top").2.1 (by decide)).2,
   ((prompt_pid_and_kill_signal (fun _ _ => 0) "99999999999").2.1 (by decide)).1⟩

/-- The case labels on sample keys. -/
theorem key_command_examples :
    key_command (chr 'q') = Command.quit ∧ key_command 27 = Command.quit ∧
    key_command (chr 'c') = Command.sort_cpu ∧ key_command (chr 'M') = Command.sort_mem ∧
    key_command (chr 'k') = Command.kill ∧ key_command (chr 'R') = Command.refresh ∧
    key_command KEY_UP = Command.line_up ∧ key_command KEY_NPAGE = Command.page_down ∧
    key_command ERR = Command.idle ∧ key_command (chr 'x') = Command.idle := by
  decide

theorem main_wait_step_running (LINES : Int) (stod : String → StodResult)
    (kill : Int → Int → Int) (s : LoopState) (p : Poll) (h : s.running = false) :
    (main_wait_step LINES stod kill s p).running = false := by
  unfold main_wait_step
  cases key_command p.ch
  case quit => rfl
  all_goals exact h

theorem key_command_quit (ch : Int) (h : ch = 27 ∨ ch = chr 'q') :
    key_command ch = Command.quit := by
  have hE : ch ≠ ERR := by
    rcases h with h | h <;> rw [h] <;> decide
  unfold key_command
  rw [if_neg hE, if_pos h]

theorem main_wait_step_quit (LINES : Int) (stod : String → StodResult)
    (kill : Int → Int → Int) (s : LoopState) (p : Poll) (h : p.ch = 27 ∨ p.ch = chr 'q') :
    (main_wait_step LINES stod kill s p).running = false := by
  unfold main_wait_step
  rw [key_command_quit p.ch h]

theorem running_false_preserved (LINES : Int) (stod : String → StodResult)
    (kill : Int → Int → Int) (polls : List Poll) :
    ∀ s : LoopState, s.running = false → (main_wait LINES stod kill polls s).running = false := by
  induction polls with
  | nil => intro s h; exact h
  | cons p ps ih =>
    intro s h
    exact ih _ (main_wait_step_running LINES stod kill s p h)

theorem running_false_after_quit (LINES : Int) (stod : String → StodResult)
    (kill : Int → Int → Int) (polls : List Poll) :
    ∀ s : LoopState, (∃ p ∈ polls, p.ch = 27 ∨ p.ch = chr 'q') →
      (main_wait LINES stod kill polls s).running = false := by
  induction polls with
  | nil => intro s h; obtain ⟨p, hp, _⟩ := h; exact absurd hp (List.not_mem_nil p)
  | cons p ps ih =>
    intro s h
    obtain ⟨q, hq, hquit⟩ := h
    rcases List.mem_cons.mp hq with rfl | hq
    · exact running_false_preserved LINES stod kill ps _ (main_wait_step_quit LINES stod kill s q hquit)
    · exact ih _ ⟨q, hq, hquit⟩

theorem main_loop_stopped (LINES : Int) (stod : String → StodResult)
    (kill : Int → Int → Int) (ws : List (List Poll)) (s : LoopState) (h : s.running = false) :
    main_loop LINES stod kill ws s = (0, s) := by
  cases ws with
  | nil => rfl
  | cons w ws => simp [main_loop, h]

/-- C10 (as stated, refuted): in one wait the keys `q`, `m`, cursor down and `k`
(with the line `4242!`) are read; the keys after `q` are still interpreted: the
sort key changes to MEM, the offset to 1, a prompt is opened and SIGKILL is sent
to pid 4242.  Likewise `r` after `q` opens the refresh prompt and sets the
interval to 2. -/
theorem main_wait_keys_after_quit :
    main_wait 24 const_stod (fun _ _ => 0) keys_after_quit {}
      = { opt := { sortKey := SortKey.MEM, offset := 1, refreshSec := 1 }
          running := false
          signals := [(4242, SIGKILL)]
          prompts := 1 } ∧
    main_wait 24 const_stod (fun _ _ => 0) refresh_after_quit {}
      = { opt := { sortKey := SortKey.CPU, offset := 0, refreshSec := 2 }
          running := false
          signals := []
          prompts := 1 } := by
  decide!

/-- C10 (amended): once a quit key (`q` or ESC) has been read in a wait, the flag
`running` is false at the end of that wait whatever keys follow, so the tick loop
ends after that wait: no further tick is carried out and the state is the one the
wait left. -/
theorem main_wait_quit_ends_loop (LINES : Int) (stod : String → StodResult)
    (kill : Int → Int → Int) (polls : List Poll) (s : LoopState)
    (h : ∃ p ∈ polls, p.ch = 27 ∨ p.ch = chr 'q') :
    (main_wait LINES stod kill polls s).running = false ∧
    ∀ ws : List (List Poll), s.running = true →
      main_loop LINES stod kill (polls :: ws) s = (1, main_wait LINES stod kill polls s) := by
  have hq := running_false_after_quit LINES stod kill polls s h
  refine ⟨hq, ?_⟩
  intro ws hr
  simp [main_loop, hr, main_loop_stopped LINES stod kill ws _ hq]

/-- A witness of C10 (amended): the wait `keys_after_quit` ends with `running`
false, and the tick loop carries out one tick although two more waits are given. -/
theorem main_wait_quit_ends_loop_witness :
    (main_wait 24 const_stod (fun _ _ => 0) keys_after_quit {}).running = false ∧
    (main_loop 24 const_stod (fun _ _ => 0) [keys_after_quit, [], []] {}).1 = 1 :=
  ⟨(main_wait_quit_ends_loop 24 const_stod (fun _ _ => 0) keys_after_quit {}
      ⟨{ ch := chr 'q' }, by decide, Or.inr rfl⟩).1,
   by
    rw [(main_wait_quit_ends_loop 24 const_stod (fun _ _ => 0) keys_after_quit {}
      ⟨{ ch := chr 'q' }, by decide, Or.inr rfl⟩).2 [[], []] rfl]⟩

end SysMonitor
